import Mathlib

/-!
# aidea-server: mail queue handler and chat message normalisation

Shallow embedding of

* `internal/queue/mail.go`: `MailPayload`, `NewMailTask`, `BuildMailSendHandler`;
* `internal/ai/chat/chat.go`: `Messages.Fix`;
* `api/controllers/rooms.go`: the filter of `RoomController.Galleries`.

Conventions.

* A Go `error` value is a dynamic type together with the text its `Error()`
  method returns; `nil` is `none : Option GoError`.
* A `time.Time` is an integer count of nanoseconds, a `time.Duration` too.
* The handler runs against an environment giving the results of the calls it
  makes (`json.Unmarshal`, `time.Now`, `mailer.Send`, `queueRepo.Update`); the
  ledger is an explicit state threaded through `queueRepo.Update`.  Every call
  to `mailer.Send` and to `queueRepo.Update` is recorded in a trace.  Log
  lines are not recorded.
* A panic is an exit of the function body carrying the panic value.
-/

set_option autoImplicit false

namespace Queue

/-! ## Go values -/

/-- Go error value: its dynamic type and the text returned by `Error()`. -/
structure GoError where
  dynType : String
  msg : String
deriving DecidableEq, Repr

/-- Method `Error()` of the `error` interface. -/
def GoError.Error (e : GoError) : String := e.msg

/-- Value handed to `panic`: either a value that implements `error`, or a
value of some other dynamic type (for instance a `string`). -/
inductive PanicValue where
  | isError (e : GoError)
  | other (dynType : String) (repr : String)
deriving DecidableEq, Repr

/-- The `*runtime.TypeAssertionError` raised by `v.(error)` when the dynamic
type of `v` has no method `Error`. -/
def typeAssertionError (dynType : String) : GoError :=
  ⟨"*runtime.TypeAssertionError",
   "interface conversion: " ++ dynType ++ " is not error: missing method Error"⟩

/-- Constant `time.Minute`, in nanoseconds. -/
def Minute : Int := 60 * 1000000000

/-! ## `MailPayload` (mail.go:15-45) -/

/-- Struct `MailPayload`. -/
structure MailPayload where
  ID : String
  To : List String
  Subject : String
  Body : String
  CreatedAt : Int
deriving DecidableEq, Repr

def MailPayload.GetTitle (payload : MailPayload) : String := payload.Subject

def MailPayload.SetID (payload : MailPayload) (id : String) : MailPayload :=
  { payload with ID := id }

def MailPayload.GetID (payload : MailPayload) : String := payload.ID

def MailPayload.GetUID (_payload : MailPayload) : Int := 0

def MailPayload.GetQuotaID (_payload : MailPayload) : Int := 0

def MailPayload.GetQuota (_payload : MailPayload) : Int := 0

/-! ## `NewMailTask` (mail.go:47-50) -/

/-- JSON values occurring in an encoded `MailPayload`. -/
inductive JValue where
  | str (s : String)
  | arr (items : List String)
deriving DecidableEq, Repr

/-- JSON object: its members in encoding order. -/
abbrev JObject := List (String × JValue)

/-- Function `json.Marshal` on a `MailPayload`, following the struct tags:
`id` is left out when empty (`omitempty`), `to`, `subject`, `body` are always
written, `created_at` is always written (`omitempty` never drops a struct)
through `Time.MarshalJSON`, given as `timeJSON`, whose failure fails the whole
encoding.  The list model of `To` does not tell a nil slice (encoded `null`)
from an empty one. -/
def Marshal (timeJSON : Int → Option String) (payload : MailPayload) : Option JObject :=
  match timeJSON payload.CreatedAt with
  | none => none
  | some t =>
    some ((if payload.ID = "" then [] else [("id", JValue.str payload.ID)]) ++
      [("to", JValue.arr payload.To),
       ("subject", JValue.str payload.Subject),
       ("body", JValue.str payload.Body),
       ("created_at", JValue.str t)])

/-- An `asynq.Task`: type name and payload bytes.  The bytes are either the
encoding of a JSON object or nil (`none`). -/
structure Task where
  typename : String
  payload : Option JObject
deriving DecidableEq, Repr

/-- Function `NewMailTask`: `data, _ := json.Marshal(payload)` (the encoding
error is dropped, `data` is then nil) and `asynq.NewTask(TypeMailSend, data)`.
The constant `TypeMailSend` is declared elsewhere in the package and is a
parameter here. -/
def NewMailTask (typeMailSend : String) (timeJSON : Int → Option String)
    (payload : MailPayload) : Task :=
  ⟨typeMailSend, Marshal timeJSON payload⟩

/-- Member `id` of an encoded payload, when the object has one. -/
def idMember (data : Option JObject) : Option JValue :=
  match data with
  | none => none
  | some obj => (obj.find? (fun kv => kv.1 == "id")).map (fun kv => kv.2)

/-- The id a task's payload carries: the string under `id`, and the empty
string (the zero value `json.Unmarshal` leaves in `MailPayload.ID`) when the
member is absent. -/
def carriedID (task : Task) : String :=
  match idMember task.payload with
  | some (JValue.str s) => s
  | _ => ""

/-! ## `BuildMailSendHandler` (mail.go:52-96) -/

/-- Constants `repo.QueueTaskStatusSuccess` and `repo.QueueTaskStatusFailed`
(declared in package `repo`), as two distinct values. -/
inductive QueueTaskStatus where
  | Success
  | Failed
deriving DecidableEq, Repr

/-- The values passed as task result: `EmptyResult{}` and
`ErrorResult{Errors: ...}` (declared elsewhere in package `queue`). -/
inductive TaskResult where
  | EmptyResult
  | ErrorResult (Errors : List String)
deriving DecidableEq, Repr

/-- How a call to `mailer.Send` ends. -/
inductive SendOutcome where
  | ok
  | err (e : GoError)
  | panics (v : PanicValue)
deriving DecidableEq, Repr

/-- Calls the handler makes to its collaborators. -/
inductive Event where
  | Send (recipients : List String) (subject : String) (body : String)
  | Update (id : String) (status : QueueTaskStatus) (result : TaskResult)
deriving DecidableEq, Repr

/-- What the handler's caller observes: a returned `error` (or nil), or a
panic leaving the handler. -/
inductive Outcome where
  | returned (err : Option GoError)
  | panicked (v : PanicValue)
deriving DecidableEq, Repr

/-- The collaborators of one handler invocation, over a ledger state `σ`:
`unmarshal` is `json.Unmarshal(task.Payload(), &payload)`, `now` the value of
`time.Now()`, `send` is `mailer.Send`, `update` is `queueRepo.Update`, which
returns the new ledger state and its `error`.  A send may return or panic; a
ledger update always returns. -/
structure Env (σ : Type) where
  unmarshal : String → Except GoError MailPayload
  now : Int
  send : List String → String → String → SendOutcome
  update : σ → String → QueueTaskStatus → TaskResult → σ × Option GoError

/-- Result of one invocation: final ledger state, trace of calls, outcome. -/
structure Run (σ : Type) where
  ledger : σ
  trace : List Event
  outcome : Outcome

/-- How the function body (mail.go:84-94) is left, before the deferred
function runs: by a `return` that has set the named result `err`, or by a
panic. -/
inductive BodyExit where
  | ret (err : Option GoError)
  | panicking (v : PanicValue)
deriving DecidableEq, Repr

/-- Lines 84-94: `mailer.Send(payload.To, "【optima】"+Subject, payload.Body)`;
on an error `return err`; otherwise
`return queueRepo.Update(ctx, payload.GetID(), Success, EmptyResult{})`. -/
def handlerBody {σ : Type} (env : Env σ) (payload : MailPayload) (s : σ) :
    σ × List Event × BodyExit :=
  let subject := "【optima】" ++ payload.Subject
  match env.send payload.To subject payload.Body with
  | SendOutcome.panics v => (s, [Event.Send payload.To subject payload.Body], BodyExit.panicking v)
  | SendOutcome.err e => (s, [Event.Send payload.To subject payload.Body], BodyExit.ret (some e))
  | SendOutcome.ok =>
    let r := env.update s payload.GetID QueueTaskStatus.Success TaskResult.EmptyResult
    (r.1, [Event.Send payload.To subject payload.Body,
           Event.Update payload.GetID QueueTaskStatus.Success TaskResult.EmptyResult],
     BodyExit.ret r.2)

/-- Lines 65-68: `recover()`; on a non-nil value `err = err2.(error)`, an
unchecked type assertion, which panics anew when the value is no `error`.
Gives the named result `err` after these lines, or the new panic. -/
def recoverStage (exit : BodyExit) : Except PanicValue (Option GoError) :=
  match exit with
  | BodyExit.ret err => Except.ok err
  | BodyExit.panicking (PanicValue.isError e) => Except.ok (some e)
  | BodyExit.panicking (PanicValue.other dynType _) =>
    Except.error (PanicValue.isError (typeAssertionError dynType))

/-- Lines 64-82, the deferred function: after `recoverStage`, when `err` is
not nil, `queueRepo.Update(ctx, payload.GetID(), Failed,
ErrorResult{Errors: []string{err.Error()}})`, whose own error is only logged. -/
def deferred {σ : Type} (env : Env σ) (payload : MailPayload) (s : σ) (exit : BodyExit) :
    σ × List Event × Outcome :=
  match recoverStage exit with
  | Except.error v => (s, [], Outcome.panicked v)
  | Except.ok none => (s, [], Outcome.returned none)
  | Except.ok (some e) =>
    let r := env.update s payload.GetID QueueTaskStatus.Failed (TaskResult.ErrorResult [e.Error])
    (r.1, [Event.Update payload.GetID QueueTaskStatus.Failed (TaskResult.ErrorResult [e.Error])],
     Outcome.returned (some e))

/-- The handler returned by `BuildMailSendHandler(mailer, queueRepo)`, applied
to a task with payload bytes `raw` and ledger state `s`. -/
def BuildMailSendHandler {σ : Type} (env : Env σ) (raw : String) (s : σ) : Run σ :=
  match env.unmarshal raw with
  | Except.error e => ⟨s, [], Outcome.returned (some e)⟩
  | Except.ok payload =>
    if payload.CreatedAt + 15 * Minute < env.now then
      ⟨s, [], Outcome.returned none⟩
    else
      let b := handlerBody env payload s
      let d := deferred env payload b.1 b.2.2
      ⟨d.1, b.2.1 ++ d.2.1, d.2.2⟩

/-- Number of calls to `queueRepo.Update` in a trace. -/
def updateCount (tr : List Event) : Nat :=
  (tr.filter (fun ev => match ev with
    | Event.Update _ _ _ => true
    | _ => false)).length

/-- Number of calls to `mailer.Send` in a trace. -/
def sendCount (tr : List Event) : Nat :=
  (tr.filter (fun ev => match ev with
    | Event.Send _ _ _ => true
    | _ => false)).length

/-! ### A ledger as a map from task id to record -/

/-- Ledger record: status and result. -/
abbrev Record := QueueTaskStatus × TaskResult

/-- Ledger as a map from task id to its record. -/
abbrev Ledger := String → Option Record

/-- An `Update` that overwrites the entry of `id` and succeeds. -/
def Ledger.Update (l : Ledger) (id : String) (status : QueueTaskStatus) (result : TaskResult) :
    Ledger × Option GoError :=
  (fun k => if k = id then some (status, result) else l k, none)

/-- List-backed ledger lookup, for evaluating concrete runs. -/
def lookupRecord (kvs : List (String × Record)) : Ledger :=
  fun k => (kvs.find? (fun kv => kv.1 == k)).map (fun kv => kv.2)

/-! ### Concrete environments -/

/-- A mail payload with id `task-1` created at `createdAt`. -/
def samplePayload (createdAt : Int) : MailPayload :=
  ⟨"task-1", ["a@example.com"], "hello", "text", createdAt⟩

/-- Environment over the map ledger: every payload decodes to `p`, the clock
reads `now`, every send ends as `out`, updates overwrite and succeed. -/
def mapEnv (p : MailPayload) (now : Int) (out : SendOutcome) : Env Ledger :=
  ⟨fun _ => Except.ok p, now, fun _ _ _ => out, Ledger.Update⟩

/-- Environment whose ledger is unavailable: every `Update` returns `e`. -/
def downEnv (p : MailPayload) (now : Int) (out : SendOutcome) (e : GoError) : Env Unit :=
  ⟨fun _ => Except.ok p, now, fun _ _ _ => out, fun s _ _ _ => (s, some e)⟩

/-- Environment whose ledger accepts every `Update` and keeps no state. -/
def upEnv (p : MailPayload) (now : Int) (out : SendOutcome) : Env Unit :=
  ⟨fun _ => Except.ok p, now, fun _ _ _ => out, fun s _ _ _ => (s, none)⟩

/-- An error reported by the mail server. -/
def smtpTimeout : GoError := ⟨"*errors.errorString", "smtp timeout"⟩

/-- An error reported by the ledger storage. -/
def dbDown : GoError := ⟨"*errors.errorString", "db down"⟩

/-- A `Time.MarshalJSON` that always succeeds. -/
def fixedTimeJSON : Int → Option String := fun _ => some "2023-10-01T00:00:00Z"

end Queue

/-! # `Messages.Fix` (chat.go:14-53) -/

namespace Chat

/-- Struct `Message`. -/
structure Message where
  Role : String
  Content : String
deriving DecidableEq, Repr

/-- Type `Messages`, a slice of `Message`. -/
abbrev Messages := List Message

/-- Body of the loop of lines 39-46, on the pair (`lastRole`,
`finalMessages`): a message whose role equals `lastRole` is skipped, any other
is appended and its role becomes `lastRole`. -/
def fixStep (st : String × List Message) (m : Message) : String × List Message :=
  if m.Role = st.1 then st else (m.Role, st.2 ++ [m])

/-- Lines 31-52 of `Fix`, on the slice `ms` as it stands after line 29.
`array.Filter` keeps the matching elements in order and `array.Reverse` gives
the reversed slice; the loop runs over the reversed slice from
`lastRole = ""` and an empty `finalMessages`; `finalMessages[:len-1]` panics
(`none`) on an empty slice. -/
def fixTail (ms : Messages) : Option Messages :=
  let systemMsgs := ms.filter (fun m => decide (m.Role = "system"))
  let ms2 := if systemMsgs.length > 0 then ms.filter (fun m => decide (m.Role ≠ "system")) else ms
  let finalMessages := (ms2.reverse.foldl fixStep ("", [])).2
  if finalMessages.length % 2 = 0 then
    if finalMessages.length = 0 then none
    else some (systemMsgs ++ (finalMessages.take (finalMessages.length - 1)).reverse)
  else some (systemMsgs ++ finalMessages.reverse)

/-- Method `Messages.Fix`. Line 22 reads `ms[len(ms)-1]`, which panics (`none`)
on an empty slice; lines 23-29 append the message (`user`, `继续`) when the
last message's role is not `user`. -/
def Messages.Fix (ms : Messages) : Option Messages :=
  match ms.getLast? with
  | none => none
  | some last =>
    if last.Role ≠ "user" then fixTail (ms ++ [⟨"user", "继续"⟩]) else fixTail ms

/-- Invariant of the loop of lines 39-46 once the first message `l1` has been
taken: `finalMessages` starts with `l1`, its last message has role `lastRole`,
no two neighbours share a role, and it holds no system message. -/
def FixInv (l1 : Message) (st : String × List Message) : Prop :=
  st.2.head? = some l1 ∧ (∃ m, st.2.getLast? = some m ∧ m.Role = st.1) ∧
  List.Chain' (fun a b : Message => a.Role ≠ b.Role) st.2 ∧ (∀ m ∈ st.2, m.Role ≠ "system")

/-- A conversation with a system prompt in the middle, a repeated assistant
turn, and no closing user turn. -/
def sampleChat : Messages :=
  [⟨"user", "a"⟩, ⟨"system", "s"⟩, ⟨"assistant", "b"⟩, ⟨"assistant", "c"⟩]

end Chat

/-! # `RoomController.Galleries` (rooms.go:60-122) -/

namespace Controllers

/-- The fields of `config.Config` read by `Galleries`. -/
structure Config where
  EnableOpenAI : Bool
  EnableBaiduWXAI : Bool
  EnableDashScopeAI : Bool
  EnableXFYunAI : Bool
  EnableSenseNovaAI : Bool
deriving DecidableEq, Repr

/-- The fields of `repo.GalleryRoom` read by `Galleries`. -/
structure GalleryRoom where
  Vendor : String
  VersionMin : String
  VersionMax : String
  Tags : List String
deriving DecidableEq, Repr

/-- The predicate handed to `array.Filter` at lines 68-103, over the
configuration, the helpers `helper.VersionOlder` and `helper.VersionNewer`
(package `helper`, given as parameters) and the client's version.  The five
vendor checks come first, with the string literals of the source; the version
checks follow. -/
def galleryKeep (conf : Config) (versionOlder versionNewer : String → String → Bool)
    (clientVersion : String) (item : GalleryRoom) : Bool :=
  if !conf.EnableOpenAI && item.Vendor == "openai" then false
  else if !conf.EnableBaiduWXAI && item.Vendor == "文心千帆" then false
  else if !conf.EnableDashScopeAI && item.Vendor == "灵积" then false
  else if !conf.EnableXFYunAI && item.Vendor == "讯飞星火" then false
  else if !conf.EnableSenseNovaAI && item.Vendor == " 商汤日日新" then false
  else if item.VersionMax == "" && item.VersionMin == "" then true
  else if item.VersionMin != "" && versionOlder clientVersion item.VersionMin then false
  else if item.VersionMax != "" && versionNewer clientVersion item.VersionMax then false
  else true

/-- The fixed tag list of line 112. -/
def galleryTags : List String :=
  ["全部", "大模型", "职场", "学习", "娱乐", "世界名人", "创意创作", "生活"]

/-- Method `Galleries`, on the result of `roomRepo.Galleries`: `none` is the
internal-error response of a failed query; otherwise the rooms kept by the
filter (`data`) and the fixed tags that occur among the kept rooms' tags
(`tags`). -/
def Galleries (conf : Config) (versionOlder versionNewer : String → String → Bool)
    (clientVersion : String) (queried : Option (List GalleryRoom)) :
    Option (List GalleryRoom × List String) :=
  match queried with
  | none => none
  | some rooms =>
    let kept := rooms.filter (galleryKeep conf versionOlder versionNewer clientVersion)
    let showTags := (kept.map (fun item => item.Tags)).flatten.eraseDups
    some (kept, galleryTags.filter (fun t => decide (t ∈ showTags)))

/-- A configuration with every vendor enabled except SenseNova. -/
def senseNovaOff : Config := ⟨true, true, true, true, false⟩

/-- A gallery room of vendor `商汤日日新` with no version bounds. -/
def senseNovaRoom : GalleryRoom := ⟨"商汤日日新", "", "", ["大模型"]⟩

end Controllers

/-! # Theorems: the mail handler -/

namespace Queue

/-- Shape of a run on a task that decodes and is not stale. -/
theorem handler_fresh {σ : Type} (env : Env σ) (raw : String) (s : σ) (payload : MailPayload)
    (hdec : env.unmarshal raw = Except.ok payload)
    (hfresh : ¬ payload.CreatedAt + 15 * Minute < env.now) :
    BuildMailSendHandler env raw s =
      ⟨(deferred env payload (handlerBody env payload s).1 (handlerBody env payload s).2.2).1,
       (handlerBody env payload s).2.1 ++
         (deferred env payload (handlerBody env payload s).1 (handlerBody env payload s).2.2).2.1,
       (deferred env payload (handlerBody env payload s).1 (handlerBody env payload s).2.2).2.2⟩ := by
  simp [BuildMailSendHandler, hdec, hfresh]

/-- C1. A delivered task that decodes and whose `created_at` plus 15 minutes is
strictly before the current time is acknowledged (the handler returns nil)
with no call to `mailer.Send`, no call to `queueRepo.Update`, and the ledger
left as it was. -/
theorem stale_task_dropped {σ : Type} (env : Env σ) (raw : String) (s : σ)
    (payload : MailPayload)
    (hdec : env.unmarshal raw = Except.ok payload)
    (hstale : payload.CreatedAt + 15 * Minute < env.now) :
    (BuildMailSendHandler env raw s).outcome = Outcome.returned none ∧
    (BuildMailSendHandler env raw s).trace = [] ∧
    sendCount (BuildMailSendHandler env raw s).trace = 0 ∧
    updateCount (BuildMailSendHandler env raw s).trace = 0 ∧
    (BuildMailSendHandler env raw s).ledger = s := by
  simp [BuildMailSendHandler, hdec, hstale, sendCount, updateCount]

/-- Witness of C1: a task created 20 minutes before the clock reading. -/
theorem stale_task_dropped_witness :
    (BuildMailSendHandler (upEnv (samplePayload 0) (20 * Minute) SendOutcome.ok) "raw" ()).outcome
        = Outcome.returned none ∧
    (BuildMailSendHandler (upEnv (samplePayload 0) (20 * Minute) SendOutcome.ok) "raw" ()).trace
        = [] ∧
    sendCount
      (BuildMailSendHandler (upEnv (samplePayload 0) (20 * Minute) SendOutcome.ok) "raw" ()).trace
        = 0 ∧
    updateCount
      (BuildMailSendHandler (upEnv (samplePayload 0) (20 * Minute) SendOutcome.ok) "raw" ()).trace
        = 0 ∧
    (BuildMailSendHandler (upEnv (samplePayload 0) (20 * Minute) SendOutcome.ok) "raw" ()).ledger
        = () :=
  stale_task_dropped (upEnv (samplePayload 0) (20 * Minute) SendOutcome.ok) "raw" ()
    (samplePayload 0) rfl (by decide)

/-- A panic whose value implements `error`, raised by `mailer.Send` on a task
that is not stale, is contained: the handler returns that error and issues one
ledger update, status failed, with the error text as the only entry. -/
theorem panic_with_error_contained {σ : Type} (env : Env σ) (raw : String) (s : σ)
    (payload : MailPayload) (e : GoError)
    (hdec : env.unmarshal raw = Except.ok payload)
    (hfresh : ¬ payload.CreatedAt + 15 * Minute < env.now)
    (hsend : env.send payload.To ("【optima】" ++ payload.Subject) payload.Body
      = SendOutcome.panics (PanicValue.isError e)) :
    (BuildMailSendHandler env raw s).outcome = Outcome.returned (some e) ∧
    (BuildMailSendHandler env raw s).trace =
      [Event.Send payload.To ("【optima】" ++ payload.Subject) payload.Body,
       Event.Update payload.ID QueueTaskStatus.Failed (TaskResult.ErrorResult [e.Error])] := by
  rw [handler_fresh env raw s payload hdec hfresh]
  simp [handlerBody, deferred, recoverStage, hsend, MailPayload.GetID]

/-- A panic whose value does not implement `error`, raised by `mailer.Send` on
a task that is not stale, leaves the handler as a panic (the failed type
assertion of line 67), and no ledger update is issued. -/
theorem panic_without_error_escapes {σ : Type} (env : Env σ) (raw : String) (s : σ)
    (payload : MailPayload) (dynType repr : String)
    (hdec : env.unmarshal raw = Except.ok payload)
    (hfresh : ¬ payload.CreatedAt + 15 * Minute < env.now)
    (hsend : env.send payload.To ("【optima】" ++ payload.Subject) payload.Body
      = SendOutcome.panics (PanicValue.other dynType repr)) :
    (BuildMailSendHandler env raw s).outcome
      = Outcome.panicked (PanicValue.isError (typeAssertionError dynType)) ∧
    updateCount (BuildMailSendHandler env raw s).trace = 0 ∧
    (BuildMailSendHandler env raw s).ledger = s := by
  rw [handler_fresh env raw s payload hdec hfresh]
  simp [handlerBody, deferred, recoverStage, hsend, updateCount]

/-- C2, evaluated where it fails. `mailer.Send` panics with the string `boom`
on a fresh task: the handler does not return an error, the panic of the failed
assertion `err2.(error)` leaves it, and the only call made is the send, so no
failed record is written. -/
theorem string_panic_escapes :
    (BuildMailSendHandler
      (upEnv (samplePayload 0) (1 * Minute) (SendOutcome.panics (PanicValue.other "string" "boom")))
      "raw" ()).outcome
      = Outcome.panicked (PanicValue.isError (typeAssertionError "string")) ∧
    (BuildMailSendHandler
      (upEnv (samplePayload 0) (1 * Minute) (SendOutcome.panics (PanicValue.other "string" "boom")))
      "raw" ()).trace
      = [Event.Send ["a@example.com"] "【optima】hello" "text"] := by
  decide

/-- C3. On a task that is not stale, when `mailer.Send` returns an error `e`
the handler calls `queueRepo.Update` with the payload's id, status failed and
`ErrorResult` with `Errors = [e.Error()]`, makes no other update, and returns
`e`, whatever the ledger update returns. -/
theorem send_error_recorded_and_returned {σ : Type} (env : Env σ) (raw : String) (s : σ)
    (payload : MailPayload) (e : GoError)
    (hdec : env.unmarshal raw = Except.ok payload)
    (hfresh : ¬ payload.CreatedAt + 15 * Minute < env.now)
    (hsend : env.send payload.To ("【optima】" ++ payload.Subject) payload.Body
      = SendOutcome.err e) :
    (BuildMailSendHandler env raw s).trace =
      [Event.Send payload.To ("【optima】" ++ payload.Subject) payload.Body,
       Event.Update payload.ID QueueTaskStatus.Failed (TaskResult.ErrorResult [e.Error])] ∧
    (BuildMailSendHandler env raw s).outcome = Outcome.returned (some e) ∧
    (BuildMailSendHandler env raw s).ledger =
      (env.update s payload.ID QueueTaskStatus.Failed (TaskResult.ErrorResult [e.Error])).1 := by
  rw [handler_fresh env raw s payload hdec hfresh]
  simp [handlerBody, deferred, recoverStage, hsend, MailPayload.GetID]

/-- Witness of C3: the send fails with `smtp timeout` while the ledger is
down. -/
theorem send_error_recorded_and_returned_witness :
    (BuildMailSendHandler (downEnv (samplePayload 0) (1 * Minute) (SendOutcome.err smtpTimeout)
        dbDown) "raw" ()).trace =
      [Event.Send ["a@example.com"] ("【optima】" ++ "hello") "text",
       Event.Update "task-1" QueueTaskStatus.Failed (TaskResult.ErrorResult ["smtp timeout"])] ∧
    (BuildMailSendHandler (downEnv (samplePayload 0) (1 * Minute) (SendOutcome.err smtpTimeout)
        dbDown) "raw" ()).outcome = Outcome.returned (some smtpTimeout) ∧
    (BuildMailSendHandler (downEnv (samplePayload 0) (1 * Minute) (SendOutcome.err smtpTimeout)
        dbDown) "raw" ()).ledger = () :=
  send_error_recorded_and_returned
    (downEnv (samplePayload 0) (1 * Minute) (SendOutcome.err smtpTimeout) dbDown) "raw" ()
    (samplePayload 0) smtpTimeout rfl (by decide) rfl

/-- C4. On a task whose age `now - created_at` is at most 15 minutes, when
`mailer.Send` succeeds and the ledger write succeeds, the handler calls
`mailer.Send` exactly once, with recipients `payload.To`, writes
(payload id, success, `EmptyResult`) to the ledger, writes no failed record,
and returns nil. -/
theorem fresh_success_recorded {σ : Type} (env : Env σ) (raw : String) (s : σ)
    (payload : MailPayload)
    (hdec : env.unmarshal raw = Except.ok payload)
    (hage : env.now - payload.CreatedAt ≤ 15 * Minute)
    (hsend : env.send payload.To ("【optima】" ++ payload.Subject) payload.Body = SendOutcome.ok)
    (hupd : (env.update s payload.ID QueueTaskStatus.Success TaskResult.EmptyResult).2 = none) :
    (BuildMailSendHandler env raw s).trace =
      [Event.Send payload.To ("【optima】" ++ payload.Subject) payload.Body,
       Event.Update payload.ID QueueTaskStatus.Success TaskResult.EmptyResult] ∧
    sendCount (BuildMailSendHandler env raw s).trace = 1 ∧
    (∀ id result,
      Event.Update id QueueTaskStatus.Failed result ∉ (BuildMailSendHandler env raw s).trace) ∧
    (BuildMailSendHandler env raw s).ledger =
      (env.update s payload.ID QueueTaskStatus.Success TaskResult.EmptyResult).1 ∧
    (BuildMailSendHandler env raw s).outcome = Outcome.returned none := by
  have hfresh : ¬ payload.CreatedAt + 15 * Minute < env.now := by omega
  rw [handler_fresh env raw s payload hdec hfresh]
  simp [handlerBody, deferred, recoverStage, hsend, hupd, MailPayload.GetID, sendCount]

/-- Witness of C4: a task aged exactly 15 minutes. -/
theorem fresh_success_recorded_witness :
    (BuildMailSendHandler (upEnv (samplePayload 0) (15 * Minute) SendOutcome.ok) "raw" ()).trace =
      [Event.Send ["a@example.com"] ("【optima】" ++ "hello") "text",
       Event.Update "task-1" QueueTaskStatus.Success TaskResult.EmptyResult] ∧
    sendCount
      (BuildMailSendHandler (upEnv (samplePayload 0) (15 * Minute) SendOutcome.ok) "raw" ()).trace
      = 1 ∧
    (∀ id result, Event.Update id QueueTaskStatus.Failed result ∉
      (BuildMailSendHandler (upEnv (samplePayload 0) (15 * Minute) SendOutcome.ok) "raw" ()).trace) ∧
    (BuildMailSendHandler (upEnv (samplePayload 0) (15 * Minute) SendOutcome.ok) "raw" ()).ledger
      = () ∧
    (BuildMailSendHandler (upEnv (samplePayload 0) (15 * Minute) SendOutcome.ok) "raw" ()).outcome
      = Outcome.returned none :=
  fresh_success_recorded (upEnv (samplePayload 0) (15 * Minute) SendOutcome.ok) "raw" ()
    (samplePayload 0) rfl (by decide) rfl rfl

/-- C5, evaluated where it fails. The send succeeds and the ledger is down:
the handler returns the ledger's error `db down`, not nil. -/
theorem ledger_error_returned_after_sent_mail :
    (BuildMailSendHandler (downEnv (samplePayload 0) (1 * Minute) SendOutcome.ok dbDown)
      "raw" ()).outcome = Outcome.returned (some dbDown) ∧
    (BuildMailSendHandler (downEnv (samplePayload 0) (1 * Minute) SendOutcome.ok dbDown)
      "raw" ()).outcome ≠ Outcome.returned none := by
  decide

/-- C5 as amended. On a task that is not stale, whatever the ledger writes
return: when `mailer.Send` fails with `e` the handler returns `e`; when
`mailer.Send` succeeds the handler returns what the write of the success
record returned, nil when that write succeeded and the ledger's error when it
failed. -/
theorem handler_result_send_then_ledger {σ : Type} (env : Env σ) (raw : String) (s : σ)
    (payload : MailPayload)
    (hdec : env.unmarshal raw = Except.ok payload)
    (hfresh : ¬ payload.CreatedAt + 15 * Minute < env.now) :
    (∀ e, env.send payload.To ("【optima】" ++ payload.Subject) payload.Body = SendOutcome.err e →
      (BuildMailSendHandler env raw s).outcome = Outcome.returned (some e)) ∧
    (env.send payload.To ("【optima】" ++ payload.Subject) payload.Body = SendOutcome.ok →
      (BuildMailSendHandler env raw s).outcome = Outcome.returned
        (env.update s payload.ID QueueTaskStatus.Success TaskResult.EmptyResult).2) := by
  rw [handler_fresh env raw s payload hdec hfresh]
  constructor
  · intro e hsend
    simp [handlerBody, deferred, recoverStage, hsend]
  · intro hsend
    cases hupd : (env.update s payload.ID QueueTaskStatus.Success TaskResult.EmptyResult).2 with
    | none => simp [handlerBody, deferred, recoverStage, hsend, hupd, MailPayload.GetID]
    | some e => simp [handlerBody, deferred, recoverStage, hsend, hupd, MailPayload.GetID]

/-- Witness of the amended C5: the send succeeds while the ledger is down. -/
theorem handler_result_send_then_ledger_witness :
    (∀ e, (downEnv (samplePayload 0) (1 * Minute) SendOutcome.ok dbDown).send
        (samplePayload 0).To ("【optima】" ++ (samplePayload 0).Subject) (samplePayload 0).Body
        = SendOutcome.err e →
      (BuildMailSendHandler (downEnv (samplePayload 0) (1 * Minute) SendOutcome.ok dbDown)
        "raw" ()).outcome = Outcome.returned (some e)) ∧
    ((downEnv (samplePayload 0) (1 * Minute) SendOutcome.ok dbDown).send
        (samplePayload 0).To ("【optima】" ++ (samplePayload 0).Subject) (samplePayload 0).Body
        = SendOutcome.ok →
      (BuildMailSendHandler (downEnv (samplePayload 0) (1 * Minute) SendOutcome.ok dbDown)
        "raw" ()).outcome = Outcome.returned
          ((downEnv (samplePayload 0) (1 * Minute) SendOutcome.ok dbDown).update ()
            (samplePayload 0).ID QueueTaskStatus.Success TaskResult.EmptyResult).2) :=
  handler_result_send_then_ledger
    (downEnv (samplePayload 0) (1 * Minute) SendOutcome.ok dbDown) "raw" ()
    (samplePayload 0) rfl (by decide)

/-- C6, evaluated where it fails. The send succeeds and the ledger is down:
`queueRepo.Update` is called twice in the one invocation, first with the
success record, then with a failed record holding the ledger's error text. -/
theorem two_updates_in_one_invocation :
    (BuildMailSendHandler (downEnv (samplePayload 0) (1 * Minute) SendOutcome.ok dbDown)
      "raw" ()).trace =
      [Event.Send ["a@example.com"] "【optima】hello" "text",
       Event.Update "task-1" QueueTaskStatus.Success TaskResult.EmptyResult,
       Event.Update "task-1" QueueTaskStatus.Failed (TaskResult.ErrorResult ["db down"])] ∧
    ¬ updateCount (BuildMailSendHandler
      (downEnv (samplePayload 0) (1 * Minute) SendOutcome.ok dbDown) "raw" ()).trace ≤ 1 := by
  decide

/-- The calls to `queueRepo.Update` in one invocation, by cases: at most one,
or the task is not stale, the send succeeded, the write of the success record
returned an error `e`, and the trace is the send, the success write and a
failed write holding the text of `e`. -/
theorem update_count_cases {σ : Type} (env : Env σ) (raw : String) (s : σ) :
    updateCount (BuildMailSendHandler env raw s).trace ≤ 1 ∨
    ∃ payload e, env.unmarshal raw = Except.ok payload ∧
      ¬ payload.CreatedAt + 15 * Minute < env.now ∧
      env.send payload.To ("【optima】" ++ payload.Subject) payload.Body = SendOutcome.ok ∧
      (env.update s payload.ID QueueTaskStatus.Success TaskResult.EmptyResult).2 = some e ∧
      (BuildMailSendHandler env raw s).trace =
        [Event.Send payload.To ("【optima】" ++ payload.Subject) payload.Body,
         Event.Update payload.ID QueueTaskStatus.Success TaskResult.EmptyResult,
         Event.Update payload.ID QueueTaskStatus.Failed (TaskResult.ErrorResult [e.Error])] ∧
      updateCount (BuildMailSendHandler env raw s).trace = 2 := by
  cases hdec : env.unmarshal raw with
  | error e => left; simp [BuildMailSendHandler, hdec, updateCount]
  | ok payload =>
    by_cases hst : payload.CreatedAt + 15 * Minute < env.now
    · left; simp [BuildMailSendHandler, hdec, hst, updateCount]
    · rw [handler_fresh env raw s payload hdec hst]
      cases hsend : env.send payload.To ("【optima】" ++ payload.Subject) payload.Body with
      | ok =>
        cases hupd : (env.update s payload.ID QueueTaskStatus.Success
            TaskResult.EmptyResult).2 with
        | none =>
          left
          simp [handlerBody, deferred, recoverStage, hsend, hupd, updateCount, MailPayload.GetID]
        | some e =>
          right
          refine ⟨payload, e, rfl, hst, hsend, hupd, ?_⟩
          simp [handlerBody, deferred, recoverStage, hsend, hupd, updateCount, MailPayload.GetID]
      | err e =>
        left; simp [handlerBody, deferred, recoverStage, hsend, updateCount]
      | panics v =>
        cases v with
        | isError e => left; simp [handlerBody, deferred, recoverStage, hsend, updateCount]
        | other t r => left; simp [handlerBody, deferred, recoverStage, hsend, updateCount]

/-- C6 as amended. In every invocation `queueRepo.Update` is called at most
once, except when the task is not stale, `mailer.Send` succeeds and the write
of the success record returns an error `e`: in that case, always, one further
call follows, recording (payload id, failed, `ErrorResult [e.Error()]`), the
calls made are exactly the send and these two updates, and so exactly two
updates are made; there are never more than two. -/
theorem update_once_unless_success_write_fails {σ : Type} (env : Env σ) (raw : String) (s : σ) :
    (updateCount (BuildMailSendHandler env raw s).trace ≤ 1 ∨
      ∃ payload e, env.unmarshal raw = Except.ok payload ∧
        ¬ payload.CreatedAt + 15 * Minute < env.now ∧
        env.send payload.To ("【optima】" ++ payload.Subject) payload.Body = SendOutcome.ok ∧
        (env.update s payload.ID QueueTaskStatus.Success TaskResult.EmptyResult).2 = some e ∧
        (BuildMailSendHandler env raw s).trace =
          [Event.Send payload.To ("【optima】" ++ payload.Subject) payload.Body,
           Event.Update payload.ID QueueTaskStatus.Success TaskResult.EmptyResult,
           Event.Update payload.ID QueueTaskStatus.Failed (TaskResult.ErrorResult [e.Error])] ∧
        updateCount (BuildMailSendHandler env raw s).trace = 2) ∧
    (∀ payload e, env.unmarshal raw = Except.ok payload →
      ¬ payload.CreatedAt + 15 * Minute < env.now →
      env.send payload.To ("【optima】" ++ payload.Subject) payload.Body = SendOutcome.ok →
      (env.update s payload.ID QueueTaskStatus.Success TaskResult.EmptyResult).2 = some e →
      (BuildMailSendHandler env raw s).trace =
        [Event.Send payload.To ("【optima】" ++ payload.Subject) payload.Body,
         Event.Update payload.ID QueueTaskStatus.Success TaskResult.EmptyResult,
         Event.Update payload.ID QueueTaskStatus.Failed (TaskResult.ErrorResult [e.Error])] ∧
      updateCount (BuildMailSendHandler env raw s).trace = 2) ∧
    updateCount (BuildMailSendHandler env raw s).trace ≤ 2 := by
  refine ⟨update_count_cases env raw s, ?_, ?_⟩
  · intro payload e hdec hfresh hsend hupd
    rw [handler_fresh env raw s payload hdec hfresh]
    simp [handlerBody, deferred, recoverStage, hsend, hupd, updateCount, MailPayload.GetID]
  · rcases update_count_cases env raw s with h | ⟨_, _, _, _, _, _, _, h⟩
    · omega
    · omega

/-- Witness of the amended C6: the send succeeds while the ledger is down, so
the success write is followed by the failed write. -/
theorem update_once_unless_success_write_fails_witness :
    (BuildMailSendHandler (downEnv (samplePayload 0) (1 * Minute) SendOutcome.ok dbDown)
      "raw" ()).trace =
      [Event.Send (samplePayload 0).To ("【optima】" ++ (samplePayload 0).Subject)
         (samplePayload 0).Body,
       Event.Update (samplePayload 0).ID QueueTaskStatus.Success TaskResult.EmptyResult,
       Event.Update (samplePayload 0).ID QueueTaskStatus.Failed
         (TaskResult.ErrorResult [dbDown.Error])] ∧
    updateCount (BuildMailSendHandler (downEnv (samplePayload 0) (1 * Minute) SendOutcome.ok dbDown)
      "raw" ()).trace = 2 :=
  (update_once_unless_success_write_fails
    (downEnv (samplePayload 0) (1 * Minute) SendOutcome.ok dbDown) "raw" ()).2.1
    (samplePayload 0) dbDown rfl (by decide) rfl rfl

/-- C7. Over the map ledger, whose `Update` overwrites the entry: a first
attempt whose send fails followed by a second attempt, on the same payload id,
whose send succeeds (both not stale) leaves under that id the record
(success, `EmptyResult`), gives the very ledger a lone successful attempt
gives, and leaves every other id as it was. -/
theorem second_attempt_overwrites (l : Ledger) (env1 env2 : Env Ledger) (raw1 raw2 : String)
    (p1 p2 : MailPayload) (e : GoError)
    (hu1 : env1.update = Ledger.Update) (hu2 : env2.update = Ledger.Update)
    (hd1 : env1.unmarshal raw1 = Except.ok p1) (hd2 : env2.unmarshal raw2 = Except.ok p2)
    (hid : p1.ID = p2.ID)
    (hf1 : ¬ p1.CreatedAt + 15 * Minute < env1.now)
    (hf2 : ¬ p2.CreatedAt + 15 * Minute < env2.now)
    (hs1 : env1.send p1.To ("【optima】" ++ p1.Subject) p1.Body = SendOutcome.err e)
    (hs2 : env2.send p2.To ("【optima】" ++ p2.Subject) p2.Body = SendOutcome.ok) :
    (BuildMailSendHandler env2 raw2 (BuildMailSendHandler env1 raw1 l).ledger).ledger p2.ID
      = some (QueueTaskStatus.Success, TaskResult.EmptyResult) ∧
    (BuildMailSendHandler env2 raw2 (BuildMailSendHandler env1 raw1 l).ledger).ledger
      = (BuildMailSendHandler env2 raw2 l).ledger ∧
    (∀ k, k ≠ p2.ID →
      (BuildMailSendHandler env2 raw2 (BuildMailSendHandler env1 raw1 l).ledger).ledger k = l k) := by
  have h1 : (BuildMailSendHandler env1 raw1 l).ledger =
      fun k => if k = p2.ID then
        some (QueueTaskStatus.Failed, TaskResult.ErrorResult [e.Error]) else l k := by
    rw [handler_fresh env1 raw1 l p1 hd1 hf1]
    simp [handlerBody, deferred, recoverStage, hs1, hu1, Ledger.Update, MailPayload.GetID, hid]
  have h2 : ∀ l0 : Ledger, (BuildMailSendHandler env2 raw2 l0).ledger =
      fun k => if k = p2.ID then
        some (QueueTaskStatus.Success, TaskResult.EmptyResult) else l0 k := by
    intro l0
    rw [handler_fresh env2 raw2 l0 p2 hd2 hf2]
    simp [handlerBody, deferred, recoverStage, hs2, hu2, Ledger.Update, MailPayload.GetID]
  rw [h2, h2, h1]
  refine ⟨by simp, ?_, ?_⟩
  · funext k
    by_cases hk : k = p2.ID <;> simp [hk]
  · intro k hk
    simp [hk]

/-- Witness of C7: `task-1` fails with `smtp timeout`, then succeeds, over a
ledger that holds a record of another task. -/
theorem second_attempt_overwrites_witness :
    (BuildMailSendHandler (mapEnv (samplePayload 0) (2 * Minute) SendOutcome.ok) "raw"
      (BuildMailSendHandler (mapEnv (samplePayload 0) (1 * Minute) (SendOutcome.err smtpTimeout))
        "raw" (lookupRecord [("task-0", (QueueTaskStatus.Success, TaskResult.EmptyResult))])).ledger
      ).ledger (samplePayload 0).ID
      = some (QueueTaskStatus.Success, TaskResult.EmptyResult) ∧
    (BuildMailSendHandler (mapEnv (samplePayload 0) (2 * Minute) SendOutcome.ok) "raw"
      (BuildMailSendHandler (mapEnv (samplePayload 0) (1 * Minute) (SendOutcome.err smtpTimeout))
        "raw" (lookupRecord [("task-0", (QueueTaskStatus.Success, TaskResult.EmptyResult))])).ledger
      ).ledger
      = (BuildMailSendHandler (mapEnv (samplePayload 0) (2 * Minute) SendOutcome.ok) "raw"
          (lookupRecord [("task-0", (QueueTaskStatus.Success, TaskResult.EmptyResult))])).ledger ∧
    (∀ k, k ≠ (samplePayload 0).ID →
      (BuildMailSendHandler (mapEnv (samplePayload 0) (2 * Minute) SendOutcome.ok) "raw"
        (BuildMailSendHandler (mapEnv (samplePayload 0) (1 * Minute) (SendOutcome.err smtpTimeout))
          "raw" (lookupRecord [("task-0", (QueueTaskStatus.Success, TaskResult.EmptyResult))])).ledger
        ).ledger k
      = lookupRecord [("task-0", (QueueTaskStatus.Success, TaskResult.EmptyResult))] k) :=
  second_attempt_overwrites
    (lookupRecord [("task-0", (QueueTaskStatus.Success, TaskResult.EmptyResult))])
    (mapEnv (samplePayload 0) (1 * Minute) (SendOutcome.err smtpTimeout))
    (mapEnv (samplePayload 0) (2 * Minute) SendOutcome.ok)
    "raw" "raw" (samplePayload 0) (samplePayload 0) smtpTimeout
    rfl rfl rfl rfl rfl (by decide) (by decide) rfl rfl

/-- C8, evaluated where it fails. A payload with an empty id is encoded with
no `id` member: the task carries the empty id, no id was generated. -/
theorem empty_id_stays_empty :
    (⟨"", ["a@example.com"], "hello", "text", 0⟩ : MailPayload).ID = "" ∧
    idMember (NewMailTask "mail:send" fixedTimeJSON
      ⟨"", ["a@example.com"], "hello", "text", 0⟩).payload = none ∧
    ¬ carriedID (NewMailTask "mail:send" fixedTimeJSON
      ⟨"", ["a@example.com"], "hello", "text", 0⟩) ≠ "" := by
  decide

/-- C8 as amended. `NewMailTask` assigns no id: for every payload whose
encoding succeeds, the serialized payload carries exactly `p.ID`; the member
`id` is present, with value `p.ID`, when `p.ID` is not empty and absent when
`p.ID` is empty. -/
theorem NewMailTask_carries_given_id (typeMailSend : String) (timeJSON : Int → Option String)
    (p : MailPayload) (henc : Marshal timeJSON p ≠ none) :
    carriedID (NewMailTask typeMailSend timeJSON p) = p.ID ∧
    (p.ID ≠ "" →
      idMember (NewMailTask typeMailSend timeJSON p).payload = some (JValue.str p.ID)) ∧
    (p.ID = "" → idMember (NewMailTask typeMailSend timeJSON p).payload = none) := by
  unfold Marshal at henc
  cases ht : timeJSON p.CreatedAt with
  | none => simp [ht] at henc
  | some t =>
    by_cases hid : p.ID = ""
    · simp [carriedID, idMember, NewMailTask, Marshal, ht, hid]
    · simp [carriedID, idMember, NewMailTask, Marshal, ht, hid]

/-- Witness of the amended C8: a payload with the preset id `task-1`. -/
theorem NewMailTask_carries_given_id_witness :
    carriedID (NewMailTask "mail:send" fixedTimeJSON (samplePayload 0)) = (samplePayload 0).ID ∧
    ((samplePayload 0).ID ≠ "" →
      idMember (NewMailTask "mail:send" fixedTimeJSON (samplePayload 0)).payload
        = some (JValue.str (samplePayload 0).ID)) ∧
    ((samplePayload 0).ID = "" →
      idMember (NewMailTask "mail:send" fixedTimeJSON (samplePayload 0)).payload = none) :=
  NewMailTask_carries_given_id "mail:send" fixedTimeJSON (samplePayload 0) (by decide)

end Queue

/-! # Theorems: `Messages.Fix` -/

namespace Chat

/-- One loop step on a message that is not a system message keeps the
invariant. -/
theorem fixStep_inv (l1 : Message) (st : String × List Message) (m : Message)
    (h : FixInv l1 st) (hm : m.Role ≠ "system") : FixInv l1 (fixStep st m) := by
  obtain ⟨hh, ⟨x, hx, hxr⟩, hc, hs⟩ := h
  unfold fixStep
  by_cases hr : m.Role = st.1
  · simp only [hr, if_true]
    exact ⟨hh, ⟨x, hx, hxr⟩, hc, hs⟩
  · simp only [hr, if_false]
    refine ⟨?_, ⟨m, by simp, rfl⟩, ?_, ?_⟩
    · cases hst : st.2 with
      | nil => rw [hst] at hh; simp at hh
      | cons a t => rw [hst] at hh; simpa using hh
    · refine List.Chain'.append hc (List.chain'_singleton m) ?_
      intro a ha b hb
      simp only [List.head?_cons, Option.mem_def, Option.some.injEq] at hb
      rw [Option.mem_def, hx] at ha
      cases ha
      subst hb
      rw [hxr]
      exact fun h => hr h.symm
    · intro a ha
      rcases List.mem_append.mp ha with h | h
      · exact hs a h
      · simp only [List.mem_singleton] at h
        rw [h]; exact hm

/-- The loop keeps the invariant over a slice with no system message. -/
theorem foldl_fixStep_inv (l1 : Message) (R : List Message) :
    ∀ st : String × List Message, FixInv l1 st → (∀ m ∈ R, m.Role ≠ "system") →
      FixInv l1 (R.foldl fixStep st) := by
  induction R with
  | nil => intro st h _; simpa using h
  | cons m R ih =>
    intro st h hR
    rw [List.foldl_cons]
    exact ih _ (fixStep_inv l1 st m h (hR m (List.mem_cons_self m R)))
      (fun x hx => hR x (List.mem_cons_of_mem m hx))

/-- Over a slice in which no two neighbours share a role, and whose first role
differs from `lastRole`, the loop appends every message. -/
theorem foldl_fixStep_chain (R : List Message) :
    ∀ (r : String) (acc : List Message), (∀ m ∈ R.head?, m.Role ≠ r) →
      List.Chain' (fun a b : Message => b.Role ≠ a.Role) R →
      (R.foldl fixStep (r, acc)).2 = acc ++ R := by
  induction R with
  | nil => intro r acc _ _; simp
  | cons m R ih =>
    intro r acc hh hc
    have hm : m.Role ≠ r := hh m (by simp)
    rw [List.foldl_cons]
    have hstep : fixStep (r, acc) m = (m.Role, acc ++ [m]) := by simp [fixStep, hm]
    rw [hstep]
    rw [List.chain'_cons'] at hc
    rw [ih m.Role (acc ++ [m]) hc.1 hc.2]
    simp

/-- Lines 31-52 on a slice ending with a user message `l1`. -/
theorem fixTail_spec (init : List Message) (l1 : Message) (hl : l1.Role = "user") :
    ∃ T, fixTail (init ++ [l1]) = some (init.filter (fun m => decide (m.Role = "system")) ++ T) ∧
      (∀ m ∈ T, m.Role ≠ "system") ∧ T.length % 2 = 1 ∧
      List.Chain' (fun a b : Message => a.Role ≠ b.Role) T ∧ T.getLast? = some l1 := by
  have hS : (init ++ [l1]).filter (fun m => decide (m.Role = "system"))
      = init.filter (fun m => decide (m.Role = "system")) := by
    simp [List.filter_append, hl]
  obtain ⟨init2, h2, hns⟩ : ∃ init2 : List Message,
      (if (init.filter (fun m => decide (m.Role = "system"))).length > 0
        then (init ++ [l1]).filter (fun m => decide (m.Role ≠ "system")) else init ++ [l1])
        = init2 ++ [l1] ∧ ∀ m ∈ init2, m.Role ≠ "system" := by
    by_cases hlen : (init.filter (fun m => decide (m.Role = "system"))).length > 0
    · refine ⟨init.filter (fun m => decide (m.Role ≠ "system")), ?_, ?_⟩
      · simp [hlen, List.filter_append, hl]
      · intro m hm
        simpa using (List.mem_filter.mp hm).2
    · refine ⟨init, by simp [hlen], ?_⟩
      intro m hm hsys
      apply hlen
      apply List.length_pos_of_mem (a := m)
      exact List.mem_filter.mpr ⟨hm, by simpa using hsys⟩
  have hinv : FixInv l1 ((init2 ++ [l1]).reverse.foldl fixStep ("", [])) := by
    rw [List.reverse_append, List.reverse_singleton, List.singleton_append, List.foldl_cons]
    have hstep : fixStep ("", []) l1 = ("user", [l1]) := by simp [fixStep, hl]
    rw [hstep]
    apply foldl_fixStep_inv
    · refine ⟨rfl, ⟨l1, rfl, hl⟩, List.chain'_singleton l1, ?_⟩
      intro m hm
      simp only [List.mem_singleton] at hm
      rw [hm, hl]; decide
    · intro m hm
      exact hns m (List.mem_reverse.mp hm)
  unfold fixTail
  simp only [hS, h2]
  obtain ⟨hh, -, hc, hs⟩ := hinv
  generalize ((init2 ++ [l1]).reverse.foldl fixStep ("", [])).2 = F at hh hc hs ⊢
  have hF : F ≠ [] := by intro h; rw [h] at hh; simp at hh
  have hlen : F.length ≠ 0 := by simpa using hF
  by_cases hev : F.length % 2 = 0
  · simp only [hev, if_true, hlen, if_false]
    refine ⟨(F.take (F.length - 1)).reverse, rfl, ?_, ?_, ?_, ?_⟩
    · intro m hm
      exact hs m (List.mem_of_mem_take (List.mem_reverse.mp hm))
    · rw [List.length_reverse, List.length_take]
      omega
    · rw [List.chain'_reverse]
      have := hc.take (F.length - 1)
      refine this.imp ?_
      intro a b hab
      exact fun h => hab h.symm
    · rw [List.getLast?_reverse, List.head?_take]
      have : F.length - 1 ≠ 0 := by omega
      simp [this, hh]
  · simp only [hev, if_false]
    refine ⟨F.reverse, rfl, ?_, ?_, ?_, ?_⟩
    · intro m hm
      exact hs m (List.mem_reverse.mp hm)
    · rw [List.length_reverse]; omega
    · rw [List.chain'_reverse]
      refine hc.imp ?_
      intro a b hab
      exact fun h => hab h.symm
    · rw [List.getLast?_reverse, hh]


/-- Lines 31-52 return a slice of the normal shape unchanged. -/
theorem fixTail_normal (S T : List Message) (l1 : Message)
    (hS : ∀ m ∈ S, m.Role = "system") (hT : ∀ m ∈ T, m.Role ≠ "system")
    (hodd : T.length % 2 = 1) (hc : List.Chain' (fun a b : Message => a.Role ≠ b.Role) T)
    (hlast : T.getLast? = some l1) (hl : l1.Role = "user") :
    fixTail (S ++ T) = some (S ++ T) := by
  have hfs : (S ++ T).filter (fun m => decide (m.Role = "system")) = S := by
    rw [List.filter_append]
    have h1 : S.filter (fun m => decide (m.Role = "system")) = S :=
      List.filter_eq_self.mpr (fun m hm => by simpa using hS m hm)
    have h2 : T.filter (fun m => decide (m.Role = "system")) = [] :=
      List.filter_eq_nil_iff.mpr (fun m hm => by simpa using hT m hm)
    rw [h1, h2, List.append_nil]
  have hms2 : (if S.length > 0 then (S ++ T).filter (fun m => decide (m.Role ≠ "system"))
      else S ++ T) = T := by
    by_cases hlen : S.length > 0
    · rw [if_pos hlen, List.filter_append]
      have h1 : S.filter (fun m => decide (m.Role ≠ "system")) = [] :=
        List.filter_eq_nil_iff.mpr (fun m hm => by simpa using hS m hm)
      have h2 : T.filter (fun m => decide (m.Role ≠ "system")) = T :=
        List.filter_eq_self.mpr (fun m hm => by simpa using hT m hm)
      rw [h1, h2, List.nil_append]
    · have : S = [] := List.length_eq_zero.mp (by omega)
      rw [if_neg hlen, this, List.nil_append]
  have hfold : (T.reverse.foldl fixStep ("", [])).2 = T.reverse := by
    rw [foldl_fixStep_chain T.reverse "" []]
    · simp
    · intro m hm
      rw [List.head?_reverse, hlast] at hm
      cases hm
      rw [hl]; decide
    · rw [List.chain'_reverse]
      exact hc
  unfold fixTail
  simp only [hfs, hms2, hfold, List.length_reverse, List.reverse_reverse]
  have : ¬ T.length % 2 = 0 := by omega
  simp [this]

/-- Shape of `Fix ms` for a slice whose last message is `last`. -/
theorem Fix_shape (ms : Messages) (last : Message) (hlast : ms.getLast? = some last) :
    ∃ T, Messages.Fix ms = some (ms.filter (fun m => decide (m.Role = "system")) ++ T) ∧
      (∀ m ∈ T, m.Role ≠ "system") ∧ T.length % 2 = 1 ∧
      List.Chain' (fun a b : Message => a.Role ≠ b.Role) T ∧
      T.getLast? = some (if last.Role = "user" then last else ⟨"user", "继续"⟩) := by
  unfold Messages.Fix
  rw [hlast]
  by_cases hu : last.Role = "user"
  · obtain ⟨init, hinit⟩ := List.getLast?_eq_some_iff.mp hlast
    simp only [hu, ne_eq, not_true_eq_false, if_false, if_true]
    subst hinit
    obtain ⟨T, h1, h2, h3, h4, h5⟩ := fixTail_spec init last hu
    refine ⟨T, ?_, h2, h3, h4, h5⟩
    rw [h1]
    simp [List.filter_append, hu]
  · simp only [hu, ne_eq, not_false_eq_true, if_true, if_false]
    exact fixTail_spec ms ⟨"user", "继续"⟩ rfl

/-- C9. For a non-empty `ms`, `Fix ms` returns `S ++ T` where `S` is the system
messages of `ms` in their order, and `T` has no system message, has odd
length, has no two adjacent messages of one role, and ends with a user
message: the last message of `ms` when its role is `user`, otherwise the
inserted message with content `继续`. -/
theorem Fix_spec (ms : Messages) (hne : ms ≠ []) :
    ∃ T, Messages.Fix ms = some (ms.filter (fun m => decide (m.Role = "system")) ++ T) ∧
      (∀ m ∈ T, m.Role ≠ "system") ∧ T.length % 2 = 1 ∧
      List.Chain' (fun a b : Message => a.Role ≠ b.Role) T ∧
      T.getLast? = some (if (ms.getLast hne).Role = "user" then ms.getLast hne
        else ⟨"user", "继续"⟩) ∧
      (∀ m ∈ T.getLast?, m.Role = "user") :=  by
  obtain ⟨T, h1, h2, h3, h4, h5⟩ := Fix_shape ms (ms.getLast hne) (List.getLast?_eq_getLast ms hne)
  refine ⟨T, h1, h2, h3, h4, h5, ?_⟩
  intro m hm
  rw [h5] at hm
  cases hm
  by_cases hu : (ms.getLast hne).Role = "user"
  · simp [hu]
  · simp [hu]

/-- Witness of C9: the sample conversation. -/
theorem Fix_spec_witness :
    ∃ T, Messages.Fix sampleChat
        = some (sampleChat.filter (fun m => decide (m.Role = "system")) ++ T) ∧
      (∀ m ∈ T, m.Role ≠ "system") ∧ T.length % 2 = 1 ∧
      List.Chain' (fun a b : Message => a.Role ≠ b.Role) T ∧
      T.getLast? = some (if (sampleChat.getLast (by decide)).Role = "user"
        then sampleChat.getLast (by decide) else ⟨"user", "继续"⟩) ∧
      (∀ m ∈ T.getLast?, m.Role = "user") :=
  Fix_spec sampleChat (by decide)

/-- The sample conversation, evaluated: the system prompt moves to the front,
the repeated assistant turn keeps its later message, a closing user turn is
added. -/
theorem Fix_sampleChat :
    Messages.Fix sampleChat =
      some [⟨"system", "s"⟩, ⟨"user", "a"⟩, ⟨"assistant", "c"⟩, ⟨"user", "继续"⟩] ∧
    Messages.Fix [] = none := by
  decide

/-- C10. `Fix` is idempotent: for a non-empty `ms`, `Fix ms` returns a slice
`r` and `Fix r` returns `r`. -/
theorem Fix_idem (ms : Messages) (hne : ms ≠ []) :
    ∃ r, Messages.Fix ms = some r ∧ Messages.Fix r = some r := by
  obtain ⟨T, h1, h2, h3, h4, h5⟩ := Fix_shape ms (ms.getLast hne) (List.getLast?_eq_getLast ms hne)
  refine ⟨_, h1, ?_⟩
  have hrole : (if (ms.getLast hne).Role = "user" then ms.getLast hne
      else (⟨"user", "继续"⟩ : Message)).Role = "user" := by
    by_cases hu : (ms.getLast hne).Role = "user"
    · simp [hu]
    · simp [hu]
  generalize (if (ms.getLast hne).Role = "user" then ms.getLast hne
      else (⟨"user", "继续"⟩ : Message)) = l1 at h5 hrole
  have hl : (ms.filter (fun m => decide (m.Role = "system")) ++ T).getLast? = some l1 := by
    rw [List.getLast?_append, h5]; rfl
  unfold Messages.Fix
  rw [hl]
  simp only [hrole, ne_eq, not_true_eq_false, if_false]
  exact fixTail_normal _ T l1 (fun m hm => by simpa using (List.mem_filter.mp hm).2) h2 h3 h4 h5 hrole

/-- Witness of C10: the sample conversation. -/
theorem Fix_idem_witness :
    ∃ r, Messages.Fix sampleChat = some r ∧ Messages.Fix r = some r :=
  Fix_idem sampleChat (by decide)

end Chat

/-! # Theorems: `RoomController.Galleries` -/

namespace Controllers

/-- A room kept by the filter passes each vendor check as the source writes
it: its vendor is not `openai`, `文心千帆`, `灵积`, `讯飞星火` when the matching
flag is off, and is not the string of line 86, ` 商汤日日新` with its leading
blank, when `EnableSenseNovaAI` is off. -/
theorem galleryKeep_vendor (conf : Config) (versionOlder versionNewer : String → String → Bool)
    (clientVersion : String) (item : GalleryRoom)
    (hkeep : galleryKeep conf versionOlder versionNewer clientVersion item = true) :
    (conf.EnableOpenAI = false → item.Vendor ≠ "openai") ∧
    (conf.EnableBaiduWXAI = false → item.Vendor ≠ "文心千帆") ∧
    (conf.EnableDashScopeAI = false → item.Vendor ≠ "灵积") ∧
    (conf.EnableXFYunAI = false → item.Vendor ≠ "讯飞星火") ∧
    (conf.EnableSenseNovaAI = false → item.Vendor ≠ " 商汤日日新") := by
  unfold galleryKeep at hkeep
  refine ⟨?_, ?_, ?_, ?_, ?_⟩ <;> intro hoff hv <;> simp [hoff, hv] at hkeep

/-- The four vendors whose check is written with the vendor's own name are
removed from the result of `Galleries` when their flag is off. -/
theorem Galleries_removes_four (conf : Config) (versionOlder versionNewer : String → String → Bool)
    (clientVersion : String) (rooms : List GalleryRoom) (data : List GalleryRoom)
    (tags : List String)
    (hres : Galleries conf versionOlder versionNewer clientVersion (some rooms)
      = some (data, tags))
    (item : GalleryRoom) (hmem : item ∈ data) :
    (conf.EnableOpenAI = false → item.Vendor ≠ "openai") ∧
    (conf.EnableBaiduWXAI = false → item.Vendor ≠ "文心千帆") ∧
    (conf.EnableDashScopeAI = false → item.Vendor ≠ "灵积") ∧
    (conf.EnableXFYunAI = false → item.Vendor ≠ "讯飞星火") := by
  simp only [Galleries, Option.some.injEq, Prod.mk.injEq] at hres
  rw [← hres.1] at hmem
  have hkeep := (List.mem_filter.mp hmem).2
  have h := galleryKeep_vendor conf versionOlder versionNewer clientVersion item hkeep
  exact ⟨h.1, h.2.1, h.2.2.1, h.2.2.2.1⟩

/-- Under every configuration, a room of vendor `商汤日日新` with no version
bounds is kept by the filter: no vendor check matches that name. -/
theorem galleryKeep_senseNova (conf : Config) (versionOlder versionNewer : String → String → Bool)
    (clientVersion : String) (item : GalleryRoom)
    (hv : item.Vendor = "商汤日日新") (hmin : item.VersionMin = "") (hmax : item.VersionMax = "") :
    galleryKeep conf versionOlder versionNewer clientVersion item = true := by
  simp [galleryKeep, hv, hmin, hmax]

/-- C11, evaluated where it fails. With `EnableSenseNovaAI` off, a room of
vendor `商汤日日新` is kept by the filter and appears in the result of
`Galleries`: line 86 compares the vendor with ` 商汤日日新`, a leading blank
before the name. -/
theorem senseNova_room_kept_when_disabled :
    senseNovaOff.EnableSenseNovaAI = false ∧
    senseNovaRoom.Vendor = "商汤日日新" ∧
    galleryKeep senseNovaOff (fun _ _ => false) (fun _ _ => false) "1.0.0" senseNovaRoom = true ∧
    Galleries senseNovaOff (fun _ _ => false) (fun _ _ => false) "1.0.0" (some [senseNovaRoom])
      = some ([senseNovaRoom], ["大模型"]) := by
  decide

end Controllers
